import Mathlib

/-!
# Verification of the image-host storage abstraction and migration pipeline

Shallow embedding of `src/app/storage.py` and `src/migrate_to_s3.py`.

Modelling conventions:
* A local directory is a list of `(filename, size)` entries; `listdir`
  returns the names in listing order and `getsize` looks a name up.
* Python `dict[str, int]` built by repeated `d[k] = v` assignments is an
  association list built by `insertKV` (update the existing binding if the
  key is present, append otherwise).
* `fastapi.HTTPException(404, ...)` is `StorageError.notFound`,
  `fastapi.HTTPException(500, ...)` is `StorageError.backendError`.
* Remote S3 responses (success / `ClientError` with a code) are inputs to
  the embedded functions, since the remote service is outside the program.
-/

set_option autoImplicit false

namespace ImageHost

/-- A local directory state: entries `(filename, size)` in listing order. -/
abbrev Dir := List (String × Nat)

/-- Python dict assignment `m[k] = v` on an association list: update the
binding if `k` is already present, otherwise append `(k, v)`. -/
def insertKV (m : List (String × Nat)) (k : String) (v : Nat) : List (String × Nat) :=
  if m.any (fun p => p.1 == k) then
    m.map (fun p => if p.1 == k then (k, v) else p)
  else
    m ++ [(k, v)]

/-- `aiofiles.os.listdir(base_path)`: the entry names in listing order. -/
def listdirNames (dir : Dir) : List String :=
  dir.map Prod.fst

/-- `aiofiles.os.path.getsize(base_path/name)`: size of the named entry
(first entry with that name; a real directory has unique names). -/
def getsize (dir : Dir) (name : String) : Nat :=
  ((dir.find? (fun p => p.1 == name)).map Prod.snd).getD 0

/-- The names `LocalStorageProvider` iterates over after the
`if ".gitkeep" in files: files.remove(".gitkeep")` step. -/
def localVisibleNames (dir : Dir) : List String :=
  (listdirNames dir).erase ".gitkeep"

/-- `LocalStorageProvider.list_files`: listdir, drop `.gitkeep`, then build
the `file_sizes` dict by stat-ing each remaining entry. -/
def localListFiles (dir : Dir) : List (String × Nat) :=
  (localVisibleNames dir).foldl (fun m f => insertKV m f (getsize dir f)) []

/-- `LocalStorageProvider.get_file_count`: listdir, drop `.gitkeep`, count. -/
def localFileCount (dir : Dir) : Nat :=
  (localVisibleNames dir).length

/-- `LocalStorageProvider.get_total_size`: listdir, drop `.gitkeep`, sum the
sizes of the remaining entries. -/
def localTotalSize (dir : Dir) : Nat :=
  ((localVisibleNames dir).map (getsize dir)).sum

/-- Error taxonomy: `HTTPException(404)` is `notFound`, `HTTPException(500)`
is `backendError`; both carry the `detail` string. -/
inductive StorageError where
  | notFound (detail : String)
  | backendError (detail : String)
  deriving DecidableEq, Repr

/-- `LocalStorageProvider.delete_file`: `os.remove` deletes the entry and
raises `FileNotFoundError` exactly when no entry has that name; the code
translates that to a 404 `File not found`. -/
def localDeleteFile (dir : Dir) (filename : String) : Except StorageError Dir :=
  if dir.any (fun p => p.1 == filename) then
    Except.ok (dir.eraseP (fun p => p.1 == filename))
  else
    Except.error (StorageError.notFound "File not found")

/-- The immutable configuration fields of `S3StorageProvider` that
`get_file_url` reads. -/
structure S3Config where
  endpoint_url : String
  bucket_name : String
  region : String
  custom_domain : Option String
  deriving DecidableEq, Repr

/-- Python truthiness of an `str | None` field: `None` and `""` are falsy. -/
def pyTruthy : Option String → Bool
  | none => false
  | some s => !(s == "")

/-- Python `s.rstrip("/")`: drop every trailing `/` character. -/
def rstripSlash (s : String) : String :=
  String.mk ((s.data.reverse.dropWhile (fun c => c == '/')).reverse)

/-- `S3StorageProvider.get_file_url`: custom domain first, then path-style
endpoint URL, then the standard AWS virtual-hosted URL. Pure function of the
configuration and the filename; no client is opened. -/
def get_file_url (c : S3Config) (filename : String) : String :=
  if pyTruthy c.custom_domain then
    rstripSlash (c.custom_domain.getD "") ++ "/" ++ filename
  else if c.endpoint_url == "" then
    "https://" ++ c.bucket_name ++ ".s3." ++ c.region ++ ".amazonaws.com/" ++ filename
  else
    rstripSlash c.endpoint_url ++ "/" ++ c.bucket_name ++ "/" ++ filename

/-- Outcome of one remote S3 call, as seen by the `except ClientError`
handlers: success, or a `ClientError` carrying
`e.response["Error"]["Code"]` (defaulting to `""`) and the error text. -/
inductive S3Response where
  | success
  | clientError (code : String) (msg : String)
  deriving DecidableEq, Repr

/-- `S3StorageProvider.delete_file` error translation: `NoSuchKey` becomes a
404 `File not found`, any other `ClientError` becomes a 500
`Failed to delete file: ...`. -/
def s3DeleteFile (resp : S3Response) : Except StorageError Unit :=
  match resp with
  | S3Response.success => Except.ok ()
  | S3Response.clientError code msg =>
      if code == "NoSuchKey" then
        Except.error (StorageError.notFound "File not found")
      else
        Except.error (StorageError.backendError ("Failed to delete file: " ++ msg))

/-- One `list_objects_v2` response: the `Contents` entries as `(Key, Size)`
pairs, plus the pagination fields the response carries. -/
structure ListResponse where
  contents : List (String × Nat)
  isTruncated : Bool
  nextContinuationToken : Option String
  deriving DecidableEq, Repr

/-- `S3StorageProvider.list_files`: builds `file_sizes` from the `Contents`
of the single `list_objects_v2` response; the pagination fields are never
read and no continuation request is issued. -/
def s3ListFiles (resp : ListResponse) : List (String × Nat) :=
  resp.contents.foldl (fun m p => insertKV m p.1 p.2) []

/-- `S3StorageProvider.get_file_count`: `len(await self.list_files())`. -/
def s3FileCount (resp : ListResponse) : Nat :=
  (s3ListFiles resp).length

/-- `S3StorageProvider.get_total_size`: `sum((await self.list_files()).values())`. -/
def s3TotalSize (resp : ListResponse) : Nat :=
  ((s3ListFiles resp).map Prod.snd).sum

/-- Model of the remote side of one `list_objects_v2` call against a bucket
holding `bucket` objects when a response page carries at most `pageSize`
entries: the first page, with `IsTruncated`/`NextContinuationToken` set
when objects remain. -/
def firstPage (bucket : List (String × Nat)) (pageSize : Nat) : ListResponse :=
  { contents := bucket.take pageSize
    isTruncated := decide (pageSize < bucket.length)
    nextContinuationToken :=
      if pageSize < bucket.length then some "opaque-token" else none }

/-! ## Migration pipeline (`src/migrate_to_s3.py`) -/

/-- One iteration of the `for attempt in range(max_retries + 1)` loop of
`upload_file_with_retry`, starting at `attempt` with `fuel` iterations left.
`outcomes a` is the result of the read-and-save body on attempt `a` (the
raised exception's message on failure). Returns
`(success, error_message, attempts_made, backoff_delays_slept)`; when the
loop runs out of iterations the function falls through to
`return filename, False, "Max retries exceeded"`. -/
def retryLoop (outcomes : Nat → Except String Unit) (max_retries : Nat) :
    Nat → Nat → Bool × String × Nat × List Nat
  | _, 0 => (false, "Max retries exceeded", 0, [])
  | attempt, fuel + 1 =>
      match outcomes attempt with
      | Except.ok _ => (true, "", 1, [])
      | Except.error e =>
          if attempt = max_retries then
            (false, e, 1, [])
          else
            let r := retryLoop outcomes max_retries (attempt + 1) fuel
            (r.1, r.2.1, r.2.2.1 + 1, 2 ^ attempt :: r.2.2.2)

/-- `upload_file_with_retry`: run the loop from attempt 0 with its
`max_retries + 1` iterations. -/
def upload_file_with_retry (outcomes : Nat → Except String Unit)
    (max_retries : Nat) : Bool × String × Nat × List Nat :=
  retryLoop outcomes max_retries 0 (max_retries + 1)

/-- How `migrate_files_to_s3` exits its pre-transfer phase, in the order the
code checks: empty listing, `start_from < 1`, `start_from > len(file_list)`,
the dry-run report, or proceeding to transfer with the skipped count and the
slice `file_list[start_from - 1:]`. -/
inductive MigrateOutcome where
  | noFiles
  | badStartLow
  | badStartHigh
  | dryRunExit (report : List (Nat × String × Nat))
  | proceed (skipped : Nat) (toProcess : List (String × Nat))
  deriving DecidableEq, Repr

/-- `true` exactly for the two `--start-from` validation failures. -/
def MigrateOutcome.isValidationError : MigrateOutcome → Bool
  | MigrateOutcome.badStartLow => true
  | MigrateOutcome.badStartHigh => true
  | _ => false

/-- The pre-transfer phase of `migrate_files_to_s3`: `file_list` is the
snapshot `list(local_files.items())` and `start_from` the 1-based resume
index (an `int`, so possibly < 1). The dry-run report enumerates the slice
as `enumerate(files_to_process, start_from)` does: `(index, key, size)`. -/
def migratePrep (file_list : List (String × Nat)) (start_from : Int)
    (dry_run : Bool) : MigrateOutcome :=
  if file_list.isEmpty then MigrateOutcome.noFiles
  else if start_from < 1 then MigrateOutcome.badStartLow
  else if start_from > file_list.length then MigrateOutcome.badStartHigh
  else
    let toProcess := file_list.drop (start_from.toNat - 1)
    if dry_run then
      MigrateOutcome.dryRunExit
        (toProcess.enum.map (fun p => (start_from.toNat + p.1, p.2.1, p.2.2)))
    else
      MigrateOutcome.proceed (start_from.toNat - 1) toProcess

/-- A backend operation issued by the migration run. -/
inductive Op where
  | listSource
  | readSource (key : String)
  | saveDest (key : String)
  | deleteSource (key : String)
  deriving DecidableEq, Repr

/-- Backend operations performed by one `migrate_files_to_s3` invocation
after `local_provider.list_files()` succeeded with `file_list`. Every early
exit (no files, bad start index, dry run, declined confirmation) happens
before any transfer, so only the initial listing was issued; the transfer
and deletion phases contribute `transferOps`/`deleteOps` (abstract here,
they depend on upload outcomes). -/
def migrateOps (file_list : List (String × Nat)) (start_from : Int)
    (dry_run confirm : Bool)
    (transferOps : List (String × Nat) → List Op) (deleteOps : List Op) :
    List Op :=
  match migratePrep file_list start_from dry_run with
  | MigrateOutcome.proceed _ toProcess =>
      if confirm then Op.listSource :: (transferOps toProcess ++ deleteOps)
      else [Op.listSource]
  | _ => [Op.listSource]

/-- The status lines printed by `upload_with_progress`, one per completion.
`completions` lists the finished tasks in completion order, each as
`(original 1-based sequence index, filename)`. The code shows
`current_overall_index = start_from + completed_count - 1`, where
`completed_count` is the number of completions so far; the task's own
`file_index` parameter is unused. Each output pair is
`(displayed index, original sequence index)`. -/
def statusIndices (start_from : Nat) (completions : List (Nat × String)) :
    List (Nat × Nat) :=
  completions.enum.map (fun p => (start_from + (p.1 + 1) - 1, p.2.1))

/-- The per-file deletion loop: each `delete_file` call is wrapped in its
own `try/except`, so every key is attempted whatever the earlier outcomes;
`delOk k` tells whether deleting `k` succeeds. Returns the attempted keys
paired with their outcomes. -/
def deleteLoop (delOk : String → Bool) (keys : List String) :
    List (String × Bool) :=
  keys.map (fun k => (k, delOk k))

/-- The source-deletion phase after all tasks settle:
`if delete_local and not failed_uploads:` delete every key of
`successful_uploads`; `elif delete_local and failed_uploads:` report the
skip and delete nothing. -/
def deletionPhase (delete_local : Bool) (successful_uploads : List String)
    (failed_uploads : List (String × String)) (delOk : String → Bool) :
    List (String × Bool) :=
  if delete_local && failed_uploads.isEmpty then
    deleteLoop delOk successful_uploads
  else
    []

/-! ## Helper lemmas -/

/-- Building a dict by repeated assignment from entries with fresh keys just
appends the entries. -/
theorem foldl_insertKV (l : List (String × Nat)) :
    ∀ m : List (String × Nat), ((m.map Prod.fst ++ l.map Prod.fst).Nodup) →
      l.foldl (fun acc p => insertKV acc p.1 p.2) m = m ++ l := by
  induction l with
  | nil => intro m _; simp
  | cons p rest ih =>
      intro m h
      have hk : p.1 ∉ m.map Prod.fst := by
        have hd := (List.nodup_append.mp h).2.2
        intro hmem
        exact hd hmem (by simp)
      have hany : m.any (fun q => q.1 == p.1) = false := by
        cases hh : m.any (fun q => q.1 == p.1) with
        | false => rfl
        | true =>
            obtain ⟨q, hq, hqp⟩ := List.any_eq_true.mp hh
            exact absurd ((eq_of_beq hqp) ▸ List.mem_map_of_mem Prod.fst hq) hk
      have hins : insertKV m p.1 p.2 = m ++ [p] := by
        simp [insertKV, hany]
      have hni : ((m ++ [p]).map Prod.fst ++ rest.map Prod.fst).Nodup := by
        simp only [List.map_append, List.append_assoc]
        simpa using h
      rw [List.foldl_cons, hins, ih (m ++ [p]) hni]
      simp

/-- Under unique keys, `getsize` returns an entry's own recorded size. -/
theorem getsize_eq_of_mem (dir : Dir) (p : String × Nat)
    (hn : (listdirNames dir).Nodup) (hp : p ∈ dir) :
    getsize dir p.1 = p.2 := by
  induction dir with
  | nil => cases hp
  | cons q rest ih =>
      have hn' : (listdirNames rest).Nodup :=
        (List.nodup_cons.mp (by simpa [listdirNames] using hn)).2
      rcases List.mem_cons.mp hp with h | h
      · subst h
        simp [getsize, List.find?]
      · have hq : (q.1 == p.1) = false := by
          have hqn : q.1 ∉ listdirNames rest :=
            (List.nodup_cons.mp (by simpa [listdirNames] using hn)).1
          simp only [beq_eq_false_iff_ne, ne_eq]
          intro he
          exact hqn (he ▸ List.mem_map_of_mem Prod.fst h)
        simp only [getsize, List.find?, hq] at ih ⊢
        exact ih hn' h

/-- Under unique names, `list_files` pairs each visible name with its size,
in listing order. -/
theorem localListFiles_eq_map (dir : Dir) (hn : (listdirNames dir).Nodup) :
    localListFiles dir
      = (localVisibleNames dir).map (fun f => (f, getsize dir f)) := by
  have hvn : (localVisibleNames dir).Nodup := hn.erase _
  have hkeys : (((localVisibleNames dir).map (fun f => (f, getsize dir f))).map
      Prod.fst) = localVisibleNames dir := by
    rw [List.map_map]
    exact List.map_id _ ▸ rfl
  have hfold :=
    foldl_insertKV ((localVisibleNames dir).map (fun f => (f, getsize dir f))) []
      (by simpa [hkeys] using hvn)
  calc localListFiles dir
      = ((localVisibleNames dir).map (fun f => (f, getsize dir f))).foldl
          (fun acc p => insertKV acc p.1 p.2) [] := by
        simp [localListFiles, List.foldl_map]
    _ = (localVisibleNames dir).map (fun f => (f, getsize dir f)) := by
        simpa using hfold

/-- `s3ListFiles` reproduces the response contents when its keys are unique. -/
theorem s3ListFiles_eq_contents (resp : ListResponse)
    (hn : (resp.contents.map Prod.fst).Nodup) :
    s3ListFiles resp = resp.contents := by
  simpa [s3ListFiles] using foldl_insertKV resp.contents [] (by simpa using hn)

/-- When every attempt fails, the retry loop started at `attempt` with the
matching fuel fails with the last error after sleeping `2 ^ n` for each
non-final attempt `n`. -/
theorem retryLoop_allFail (err : Nat → String) (max_retries : Nat) :
    ∀ fuel attempt : Nat, attempt + fuel = max_retries + 1 → 1 ≤ fuel →
      retryLoop (fun a => Except.error (err a)) max_retries attempt fuel
        = (false, err max_retries, fuel,
            (List.range' attempt (fuel - 1)).map (fun n => 2 ^ n)) := by
  intro fuel
  induction fuel with
  | zero => intro attempt _ hf; exact absurd hf (by omega)
  | succ f ih =>
      intro attempt hsum _
      by_cases hlast : attempt = max_retries
      · have hf0 : f = 0 := by omega
        subst hlast hf0
        simp [retryLoop]
      · have hf1 : 1 ≤ f := by omega
        have hrec := ih (attempt + 1) (by omega) hf1
        have hstep : retryLoop (fun a => Except.error (err a)) max_retries attempt (f + 1)
            = ((retryLoop (fun a => Except.error (err a)) max_retries (attempt + 1) f).1,
               (retryLoop (fun a => Except.error (err a)) max_retries (attempt + 1) f).2.1,
               (retryLoop (fun a => Except.error (err a)) max_retries (attempt + 1) f).2.2.1 + 1,
               2 ^ attempt ::
                 (retryLoop (fun a => Except.error (err a)) max_retries (attempt + 1) f).2.2.2) := by
          conv_lhs => rw [retryLoop]
          simp [hlast]
        rw [hstep, hrec]
        obtain ⟨g, rfl⟩ : ∃ g, f = g + 1 := ⟨f - 1, by omega⟩
        simp [List.range'_succ]

/-- C3: with `maxRetries` ≥ 0 and every attempt failing (attempt `a` raises
the message `err a`), `upload_file_with_retry` returns failure carrying the
last attempt's error, makes exactly `maxRetries + 1` attempts, and sleeps
exactly `2 ^ n` between attempts `n` and `n + 1` — the delays are
`2^0, 2^1, …, 2^(maxRetries-1)`, with no sleep after the final attempt. -/
theorem c3_retry_exhaustion (err : Nat → String) (max_retries : Nat) :
    upload_file_with_retry (fun a => Except.error (err a)) max_retries
      = (false, err max_retries, max_retries + 1,
          (List.range max_retries).map (fun n => 2 ^ n)) := by
  have h := retryLoop_allFail err max_retries (max_retries + 1) 0
    (by omega) (by omega)
  simpa [upload_file_with_retry, List.range_eq_range'] using h

/-- Witness for C3 at `maxRetries = 3`: four attempts, the last error kept,
backoff delays 1, 2, 4. -/
theorem c3_retry_exhaustion_witness :
    upload_file_with_retry (fun a => Except.error ("err" ++ toString a)) 3
      = (false, "err3", 4, [1, 2, 4]) :=
  (c3_retry_exhaustion (fun a => "err" ++ toString a) 3).trans (by decide)

/-- C1: with source deletion requested, an empty failure set leads to a
`delete_file` call for every successfully migrated key and no other key —
each in its own `try/except`, so one key's deletion failure (`delOk k =
false`) never prevents the remaining deletions — while a non-empty failure
set suppresses source deletion entirely. -/
theorem c1_delete_gating (successful_uploads : List String)
    (failed_uploads : List (String × String)) (delOk : String → Bool) :
    (failed_uploads = [] →
        (deletionPhase true successful_uploads failed_uploads delOk).map Prod.fst
          = successful_uploads)
      ∧ (failed_uploads ≠ [] →
          deletionPhase true successful_uploads failed_uploads delOk = []) := by
  constructor
  · intro h
    subst h
    simp only [deletionPhase, deleteLoop]
    rw [if_pos (by simp), List.map_map,
      show (Prod.fst ∘ fun k : String => (k, delOk k)) = id from rfl, List.map_id]
  · intro h
    cases failed_uploads with
    | nil => exact absurd rfl h
    | cons q t => simp [deletionPhase, deleteLoop]

/-- Witness for C1 at concrete inputs: deleting `b` fails yet `a`, `b`, `c`
are all attempted; one failed upload suppresses deletion. -/
theorem c1_delete_gating_witness :
    ((deletionPhase true ["a", "b", "c"] [] (fun k => !(k == "b"))).map Prod.fst
        = ["a", "b", "c"])
      ∧ deletionPhase true ["a", "b"] [("c", "boom")] (fun _ => true) = [] := by
  exact ⟨(c1_delete_gating ["a", "b", "c"] [] (fun k => !(k == "b"))).1 rfl,
    (c1_delete_gating ["a", "b"] [("c", "boom")] (fun _ => true)).2 (by simp)⟩

/-- C2 (code bug): with `start_from = 1` and two tasks where the task with
original sequence index 2 completes first, the first status line displays
index 1 (`start_from + completed_count - 1`), not the task's original
sequence index 2, and the second line displays 2 for the task whose
original index is 1. -/
theorem c2_displayed_index_is_completion_order :
    statusIndices 1 [(2, "b"), (1, "a")] = [(1, 2), (2, 1)]
      ∧ (1 : Nat) ≠ 2 := by
  exact ⟨rfl, by decide⟩

/-- C4 counterexample: with an empty inventory and `start_from = 0 < 1` the
run exits through the informational `No files found` branch, which precedes
the start-index validation, so no validation error is reported even though
the claim demands one for every inventory. -/
theorem c4_empty_inventory_no_validation :
    migratePrep [] 0 false = MigrateOutcome.noFiles
      ∧ (migratePrep [] 0 false).isValidationError = false
      ∧ (0 : Int) < 1 :=
  ⟨rfl, rfl, by decide⟩

/-- C4 (amended to non-empty inventories): `start_from < 1` and
`start_from > total` fail validation (in dry-run mode too); otherwise the
run processes exactly the suffix `file_list[start_from - 1:]` — which has
`total - start_from + 1` entries — reports `start_from - 1` entries as
skipped, and the skipped entries are exactly the prefix, never part of the
processed slice. -/
theorem c4_start_index_slicing (file_list : List (String × Nat))
    (start_from : Int) (dry_run : Bool) (hne : file_list ≠ []) :
    (start_from < 1 →
        migratePrep file_list start_from dry_run = MigrateOutcome.badStartLow)
  ∧ (start_from > file_list.length →
        migratePrep file_list start_from dry_run = MigrateOutcome.badStartHigh)
  ∧ (1 ≤ start_from → start_from ≤ file_list.length →
        migratePrep file_list start_from false
            = MigrateOutcome.proceed (start_from.toNat - 1)
                (file_list.drop (start_from.toNat - 1))
          ∧ (file_list.drop (start_from.toNat - 1)).length + start_from.toNat
              = file_list.length + 1
          ∧ file_list.take (start_from.toNat - 1)
                ++ file_list.drop (start_from.toNat - 1) = file_list) := by
  have hlen : 1 ≤ file_list.length := List.length_pos.mpr hne
  have hemp : file_list.isEmpty = false := by
    cases file_list with
    | nil => exact absurd rfl hne
    | cons a l => rfl
  refine ⟨?_, ?_, ?_⟩
  · intro h
    simp [migratePrep, hemp, h]
  · intro h
    have h1 : ¬ start_from < 1 := by omega
    simp [migratePrep, hemp, h, h1]
  · intro h1 h2
    have hn1 : ¬ start_from < 1 := by omega
    have hn2 : ¬ start_from > (file_list.length : Int) := by omega
    refine ⟨?_, ?_, List.take_append_drop _ _⟩
    · simp [migratePrep, hemp, hn1, hn2]
    · simp only [List.length_drop]
      omega

/-- Witness for C4's amended theorem: three files, resume from 2. -/
theorem c4_start_index_slicing_witness :
    migratePrep [("a", 1), ("b", 2), ("c", 3)] 2 false
        = MigrateOutcome.proceed 1 [("b", 2), ("c", 3)]
      ∧ migratePrep [("a", 1), ("b", 2), ("c", 3)] 0 true
          = MigrateOutcome.badStartLow
      ∧ migratePrep [("a", 1), ("b", 2), ("c", 3)] 4 true
          = MigrateOutcome.badStartHigh := by
  refine ⟨?_, ?_, ?_⟩
  · have h := ((c4_start_index_slicing [("a", 1), ("b", 2), ("c", 3)] 2 false
      (by decide)).2.2 (by decide) (by decide)).1
    exact h.trans (by decide)
  · exact (c4_start_index_slicing [("a", 1), ("b", 2), ("c", 3)] 0 true
      (by decide)).1 (by decide)
  · exact (c4_start_index_slicing [("a", 1), ("b", 2), ("c", 3)] 4 true
      (by decide)).2.1 (by decide)

/-- C9: a dry-run invocation that reaches the slice performs the initial
source listing and nothing else — whatever operations the transfer and
deletion phases would have issued, none is reached — and reports the sliced
inventory as `(index, key, size)` triples carrying the original 1-based
indices. -/
theorem c9_dry_run_frame (file_list : List (String × Nat)) (start_from : Int)
    (confirm : Bool) (transferOps : List (String × Nat) → List Op)
    (deleteOps : List Op) (hne : file_list ≠ [])
    (h1 : 1 ≤ start_from) (h2 : start_from ≤ file_list.length) :
    migrateOps file_list start_from true confirm transferOps deleteOps
        = [Op.listSource]
      ∧ migratePrep file_list start_from true
          = MigrateOutcome.dryRunExit
              ((file_list.drop (start_from.toNat - 1)).enum.map
                (fun p => (start_from.toNat + p.1, p.2.1, p.2.2))) := by
  have hemp : file_list.isEmpty = false := by
    cases file_list with
    | nil => exact absurd rfl hne
    | cons a l => rfl
  have hn1 : ¬ start_from < 1 := by omega
  have hn2 : ¬ start_from > (file_list.length : Int) := by omega
  have hprep : migratePrep file_list start_from true
      = MigrateOutcome.dryRunExit
          ((file_list.drop (start_from.toNat - 1)).enum.map
            (fun p => (start_from.toNat + p.1, p.2.1, p.2.2))) := by
    simp [migratePrep, hemp, hn1, hn2]
  exact ⟨by simp [migrateOps, hprep], hprep⟩

/-- Witness for C9: two files, dry run from index 1, with adversarial
transfer/deletion phases that would write and delete — none is issued. -/
theorem c9_dry_run_frame_witness :
    migrateOps [("a", 1), ("b", 2)] 1 true true
        (fun l => l.map (fun p => Op.saveDest p.1)) [Op.deleteSource "a"]
      = [Op.listSource] :=
  (c9_dry_run_frame [("a", 1), ("b", 2)] 1 true
    (fun l => l.map (fun p => Op.saveDest p.1)) [Op.deleteSource "a"]
    (by decide) (by decide) (by decide)).1

/-- Keys of the local listing are exactly the visible names. -/
theorem localListFiles_keys (dir : Dir) (hn : (listdirNames dir).Nodup) :
    (localListFiles dir).map Prod.fst = localVisibleNames dir := by
  rw [localListFiles_eq_map dir hn, List.map_map,
    show (Prod.fst ∘ fun f => (f, getsize dir f)) = id from rfl, List.map_id]

/-- Under unique names, summing `getsize` over all names is summing the
recorded sizes. -/
theorem sum_getsize_eq (dir : Dir) (hn : (listdirNames dir).Nodup) :
    ((listdirNames dir).map (getsize dir)).sum = (dir.map Prod.snd).sum := by
  have hmap : (listdirNames dir).map (getsize dir) = dir.map Prod.snd := by
    simp only [listdirNames, List.map_map]
    exact List.map_congr_left (fun p hp => getsize_eq_of_mem dir p hn hp)
  rw [hmap]

/-- C5 counterexample: the object-store backend applies no sentinel
filtering — a `.gitkeep` object in the bucket appears in `list_files`, is
counted by `get_file_count`, and its size enters `get_total_size`. -/
theorem c5_s3_sentinel_not_filtered :
    s3ListFiles ⟨[(".gitkeep", 5)], false, none⟩ = [(".gitkeep", 5)]
      ∧ s3FileCount ⟨[(".gitkeep", 5)], false, none⟩ = 1
      ∧ s3TotalSize ⟨[(".gitkeep", 5)], false, none⟩ = 5 :=
  ⟨rfl, rfl, rfl⟩

/-- C5 (amended to the local backend): `.gitkeep` never appears in
`list_files`, is not counted by `get_file_count`, and its size is excluded
from `get_total_size`; without a `.gitkeep` entry nothing is filtered. -/
theorem c5_local_sentinel_excluded (dir : Dir)
    (hn : (listdirNames dir).Nodup) :
    ".gitkeep" ∉ (localListFiles dir).map Prod.fst
  ∧ (∀ s : Nat, (".gitkeep", s) ∈ dir →
      localFileCount dir + 1 = dir.length
        ∧ localTotalSize dir + s = (dir.map Prod.snd).sum)
  ∧ (".gitkeep" ∉ listdirNames dir →
      localFileCount dir = dir.length
        ∧ localTotalSize dir = (dir.map Prod.snd).sum) := by
  refine ⟨?_, ?_, ?_⟩
  · rw [localListFiles_keys dir hn]
    intro hmem
    exact (hn.mem_erase_iff.mp hmem).1 rfl
  · intro s hmem
    have hname : ".gitkeep" ∈ listdirNames dir :=
      List.mem_map_of_mem Prod.fst hmem
    have hlen1 : 1 ≤ dir.length := List.length_pos.mpr (by rintro rfl; cases hmem)
    constructor
    · have hl := List.length_erase_of_mem hname
      have hlm : (listdirNames dir).length = dir.length := by
        simp [listdirNames]
      simp only [localFileCount, localVisibleNames]
      omega
    · have hperm : List.Perm (listdirNames dir)
          (".gitkeep" :: localVisibleNames dir) :=
        List.perm_cons_erase hname
      have hsum : ((listdirNames dir).map (getsize dir)).sum
          = getsize dir ".gitkeep"
            + ((localVisibleNames dir).map (getsize dir)).sum := by
        have := (hperm.map (getsize dir)).sum_eq
        simpa using this
      have hgs : getsize dir ".gitkeep" = s :=
        getsize_eq_of_mem dir (".gitkeep", s) hn hmem
      have := sum_getsize_eq dir hn
      simp only [localTotalSize]
      omega
  · intro habs
    have hv : localVisibleNames dir = listdirNames dir :=
      List.erase_of_not_mem habs
    constructor
    · simp [localFileCount, hv, listdirNames]
    · simp only [localTotalSize, hv]
      exact sum_getsize_eq dir hn

/-- Witness for C5's amended theorem: a directory holding `a`, `.gitkeep`,
`b`. -/
theorem c5_local_sentinel_excluded_witness :
    ".gitkeep" ∉ (localListFiles [("a", 3), (".gitkeep", 6), ("b", 4)]).map
        Prod.fst
      ∧ localFileCount [("a", 3), (".gitkeep", 6), ("b", 4)] + 1 = 3
      ∧ localTotalSize [("a", 3), (".gitkeep", 6), ("b", 4)] + 6 = 13 := by
  have h := c5_local_sentinel_excluded [("a", 3), (".gitkeep", 6), ("b", 4)]
    (by decide)
  refine ⟨h.1, ?_, ?_⟩
  · exact (h.2.1 6 (by decide)).1
  · exact ((h.2.1 6 (by decide)).2).trans (by decide)

/-- C6: `get_file_url` is a pure function of the configuration and the key,
applying in priority order the custom domain (trailing slashes stripped),
then the path-style endpoint URL, then the virtual-hosted AWS URL. -/
theorem c6_resolve_url (c : S3Config) (key : String) :
    (∀ d : String, c.custom_domain = some d → d ≠ "" →
        get_file_url c key = rstripSlash d ++ "/" ++ key)
  ∧ (pyTruthy c.custom_domain = false → c.endpoint_url ≠ "" →
        get_file_url c key
          = rstripSlash c.endpoint_url ++ "/" ++ c.bucket_name ++ "/" ++ key)
  ∧ (pyTruthy c.custom_domain = false → c.endpoint_url = "" →
        get_file_url c key
          = "https://" ++ c.bucket_name ++ ".s3." ++ c.region
              ++ ".amazonaws.com/" ++ key) := by
  refine ⟨?_, ?_, ?_⟩
  · intro d hd hne
    have ht : pyTruthy (some d) = true := by
      simp [pyTruthy, hne]
    simp [get_file_url, hd, ht]
  · intro hf hne
    simp [get_file_url, hf, hne]
  · intro hf he
    simp [get_file_url, hf, he]

/-- Witness for C6: one configuration per priority tier. -/
theorem c6_resolve_url_witness :
    get_file_url ⟨"https://ep", "bkt", "auto", some "https://cdn.example.com/"⟩
        "k" = "https://cdn.example.com/k"
      ∧ get_file_url ⟨"https://ep//", "bkt", "auto", none⟩ "k"
          = "https://ep/bkt/k"
      ∧ get_file_url ⟨"", "bkt", "us-east-1", none⟩ "k"
          = "https://bkt.s3.us-east-1.amazonaws.com/k" := by
  refine ⟨?_, ?_, ?_⟩
  · exact ((c6_resolve_url ⟨"https://ep", "bkt", "auto",
      some "https://cdn.example.com/"⟩ "k").1 "https://cdn.example.com/" rfl
      (by decide)).trans (by decide)
  · exact ((c6_resolve_url ⟨"https://ep//", "bkt", "auto", none⟩ "k").2.1
      rfl (by decide)).trans (by decide)
  · exact ((c6_resolve_url ⟨"", "bkt", "us-east-1", none⟩ "k").2.2
      rfl rfl).trans (by decide)

/-- C7: `delete_file` fails with `notFound` exactly when the key is absent
(local backend), succeeds by removing the entry otherwise; the object-store
backend translates a `NoSuchKey` `ClientError` to `notFound` and any other
`ClientError` to `backendError` carrying the remote error text; every
outcome is an explicit result or a taxonomy error, never a sentinel. -/
theorem c7_delete_not_found (dir : Dir) (filename : String)
    (code msg : String) :
    ((∃ d, localDeleteFile dir filename
          = Except.error (StorageError.notFound d))
        ↔ filename ∉ listdirNames dir)
  ∧ (filename ∈ listdirNames dir →
      localDeleteFile dir filename
        = Except.ok (dir.eraseP (fun p => p.1 == filename)))
  ∧ s3DeleteFile S3Response.success = Except.ok ()
  ∧ s3DeleteFile (S3Response.clientError "NoSuchKey" msg)
      = Except.error (StorageError.notFound "File not found")
  ∧ (code ≠ "NoSuchKey" →
      s3DeleteFile (S3Response.clientError code msg)
        = Except.error
            (StorageError.backendError ("Failed to delete file: " ++ msg))) := by
  have hany : dir.any (fun p => p.1 == filename) = true
      ↔ filename ∈ listdirNames dir := by
    simp only [List.any_eq_true, listdirNames, List.mem_map, beq_iff_eq]
  refine ⟨?_, ?_, rfl, by simp [s3DeleteFile], ?_⟩
  · constructor
    · rintro ⟨d, hd⟩ hmem
      rw [localDeleteFile, if_pos (hany.mpr hmem)] at hd
      cases hd
    · intro hmem
      have hf : dir.any (fun p => p.1 == filename) = false := by
        cases h : dir.any (fun p => p.1 == filename) with
        | false => rfl
        | true => exact absurd (hany.mp h) hmem
      exact ⟨"File not found", by rw [localDeleteFile, if_neg (by simp [hf])]⟩
  · intro hmem
    rw [localDeleteFile, if_pos (hany.mpr hmem)]
  · intro hcode
    simp [s3DeleteFile, hcode]

/-- Witness for C7: a one-file directory and a non-`NoSuchKey` remote
error. -/
theorem c7_delete_not_found_witness :
    (∃ d, localDeleteFile [("a", 1)] "b"
        = Except.error (StorageError.notFound d))
      ∧ localDeleteFile [("a", 1)] "a" = Except.ok []
      ∧ s3DeleteFile (S3Response.clientError "AccessDenied" "denied")
          = Except.error
              (StorageError.backendError "Failed to delete file: denied") := by
  refine ⟨(c7_delete_not_found [("a", 1)] "b" "x" "y").1.mpr (by decide),
    ?_, ?_⟩
  · exact ((c7_delete_not_found [("a", 1)] "a" "x" "y").2.1
      (by decide)).trans rfl
  · exact ((c7_delete_not_found [("a", 1)] "a" "AccessDenied"
      "denied").2.2.2.2 (by decide)).trans rfl

/-- C8: for both backends, `get_file_count` is the cardinality of the
`list_files` mapping and `get_total_size` the sum of its sizes. -/
theorem c8_count_size_consistent (dir : Dir) (resp : ListResponse)
    (hn : (listdirNames dir).Nodup) :
    localFileCount dir = (localListFiles dir).length
  ∧ localTotalSize dir = ((localListFiles dir).map Prod.snd).sum
  ∧ s3FileCount resp = (s3ListFiles resp).length
  ∧ s3TotalSize resp = ((s3ListFiles resp).map Prod.snd).sum := by
  have hmap := localListFiles_eq_map dir hn
  refine ⟨?_, ?_, rfl, rfl⟩
  · rw [hmap, List.length_map]
    rfl
  · rw [hmap, List.map_map,
      show (Prod.snd ∘ fun f => (f, getsize dir f)) = getsize dir from rfl]
    rfl

/-- Witness for C8: a two-file directory and a one-object bucket page. -/
theorem c8_count_size_consistent_witness :
    localFileCount [("a", 1), ("b", 2)]
        = (localListFiles [("a", 1), ("b", 2)]).length
      ∧ localTotalSize [("a", 1), ("b", 2)]
          = ((localListFiles [("a", 1), ("b", 2)]).map Prod.snd).sum
      ∧ s3FileCount ⟨[("x", 3)], false, none⟩
          = (s3ListFiles ⟨[("x", 3)], false, none⟩).length := by
  have h := c8_count_size_consistent [("a", 1), ("b", 2)]
    ⟨[("x", 3)], false, none⟩ (by decide)
  exact ⟨h.1, h.2.1, h.2.2.1⟩

/-- C10: `list_files` reads exactly the single response page — it is
insensitive to the pagination fields, returns the first page's entries
as-is (unique keys), and when the bucket holds more objects than the page
carries, some bucket key is absent from the result while
`get_file_count`/`get_total_size` are computed from the truncated
mapping. -/
theorem c10_single_page_truncation (bucket : List (String × Nat))
    (pageSize : Nat) (hn : (bucket.map Prod.fst).Nodup)
    (htrunc : pageSize < bucket.length) :
    s3ListFiles (firstPage bucket pageSize) = bucket.take pageSize
  ∧ (∀ (contents : List (String × Nat)) (b₁ b₂ : Bool)
        (t₁ t₂ : Option String),
        s3ListFiles ⟨contents, b₁, t₁⟩ = s3ListFiles ⟨contents, b₂, t₂⟩)
  ∧ (∃ key, key ∈ bucket.map Prod.fst
        ∧ key ∉ (s3ListFiles (firstPage bucket pageSize)).map Prod.fst)
  ∧ s3FileCount (firstPage bucket pageSize) = (bucket.take pageSize).length
  ∧ s3TotalSize (firstPage bucket pageSize)
      = ((bucket.take pageSize).map Prod.snd).sum := by
  have hkn : ((bucket.take pageSize).map Prod.fst).Nodup := by
    rw [List.map_take]
    exact hn.sublist (List.take_sublist _ _)
  have hlist : s3ListFiles (firstPage bucket pageSize) = bucket.take pageSize :=
    s3ListFiles_eq_contents (firstPage bucket pageSize) hkn
  refine ⟨hlist, fun _ _ _ _ _ => rfl, ?_, ?_, ?_⟩
  · have hlenk : pageSize < (bucket.map Prod.fst).length := by
      simpa using htrunc
    have hne : (bucket.map Prod.fst).drop pageSize ≠ [] := by
      rw [ne_eq, List.drop_eq_nil_iff]
      omega
    obtain ⟨k, hk⟩ := List.exists_mem_of_ne_nil _ hne
    have hsplit := List.take_append_drop pageSize (bucket.map Prod.fst)
    have hnd : ((bucket.map Prod.fst).take pageSize
        ++ (bucket.map Prod.fst).drop pageSize).Nodup := by
      rw [hsplit]; exact hn
    have hdisj := (List.nodup_append.mp hnd).2.2
    refine ⟨k, List.mem_of_mem_drop hk, ?_⟩
    rw [hlist, List.map_take]
    exact fun htake => hdisj htake hk
  · simp only [s3FileCount, hlist]
  · simp only [s3TotalSize, hlist]

/-- Witness for C10: a two-object bucket with a one-entry page. -/
theorem c10_single_page_truncation_witness :
    s3ListFiles (firstPage [("a", 1), ("b", 2)] 1) = [("a", 1)]
      ∧ ∃ key, key ∈ ([("a", 1), ("b", 2)] : List (String × Nat)).map Prod.fst
          ∧ key ∉ (s3ListFiles (firstPage [("a", 1), ("b", 2)] 1)).map
              Prod.fst := by
  have h := c10_single_page_truncation [("a", 1), ("b", 2)] 1 (by decide)
    (by decide)
  exact ⟨h.1.trans (by decide), h.2.2.1⟩

end ImageHost
